import Mathlib

/-!
Verification of the double-pendulum task state machine
(`source/isaaclab_tasks/isaaclab_tasks/direct/double_pendulum/double_pendulum_env.py`).

The per-step callbacks of `DoublePendulumEnv` are shallowly embedded as pure
functions over the real numbers; the float32 tensors of the source are modelled
as real vectors (`Fin 4 → ℝ` for one batch row) and batches as functions
`Fin n → row`, since every tensor operation in the source is elementwise or
rowwise.  Randomness (`sample_uniform` draws during reset) is modelled as
explicit input parameters.
-/

open Real

noncomputable section

/-- Python / torch `%` on reals: `pymod x m = x - m * ⌊x / m⌋`; for `m > 0`
the result lies in `[0, m)` (the sign follows the divisor). -/
def pymod (x m : ℝ) : ℝ := x - m * ⌊x / m⌋

/-- The source's `normalize_angle(angle) = (angle + math.pi) % (2 * math.pi) - math.pi`. -/
def normalize_angle (x : ℝ) : ℝ := pymod (x + π) (2 * π) - π

/-- The task configuration surface of `DoublePendulumEnvCfg` that the per-step
callbacks read.  Four-vectors are indexed
`[shoulder_angle, elbow_angle, shoulder_vel, elbow_vel]`. -/
structure DoublePendulumEnvCfg where
  goal_state : Fin 4 → ℝ
  reward_state_weights : Fin 4 → ℝ
  reward_action_weight : ℝ
  reward_scale : ℝ
  time_penalty : ℝ
  bonus_reward : ℝ
  max_velocity : ℝ
  success_threshold : ℝ
  sustain_steps : ℕ
  torque_scale : ℝ

/-- The default values assigned in the `DoublePendulumEnvCfg` class body. -/
def cfgDefault : DoublePendulumEnvCfg where
  goal_state := ![-π, 0, 0, 0]
  reward_state_weights := ![1, 2, 0.1, 0.1]
  reward_action_weight := 0.1
  reward_scale := 1
  time_penalty := 0.01
  bonus_reward := 20
  max_velocity := 5
  success_threshold := 0.1
  sustain_steps := 10
  torque_scale := 10

/-- `torch.clamp(x, lo, hi) = min(max(x, lo), hi)`. -/
def clamp (x lo hi : ℝ) : ℝ := min (max x lo) hi

/-- One row of `_get_observations`: angles through `normalize_angle`, joint
velocities divided by `max_velocity` and clamped to `[-1, 1]`, concatenated as
`(shoulder_pos, elbow_pos, shoulder_vel, elbow_vel)`.  Joint index 0 is the
shoulder (`Joint1`), index 1 the elbow (`Joint2`). -/
def get_observations (cfg : DoublePendulumEnvCfg) (joint_pos joint_vel : Fin 2 → ℝ) :
    Fin 4 → ℝ :=
  ![normalize_angle (joint_pos 0), normalize_angle (joint_pos 1),
    clamp (joint_vel 0 / cfg.max_velocity) (-1) 1,
    clamp (joint_vel 1 / cfg.max_velocity) (-1) 1]

/-- `goal_tensor` after the in-place update
`goal_tensor[:2] = normalize_angle(goal_tensor[:2])` in `_get_rewards`:
the first two (angle) components are normalized, the velocity components kept. -/
def goal_tensor (cfg : DoublePendulumEnvCfg) : Fin 4 → ℝ := fun i =>
  if (i : ℕ) < 2 then normalize_angle (cfg.goal_state i) else cfg.goal_state i

/-- `error = state - goal_tensor` in `_get_rewards` (one row). -/
def reward_error (cfg : DoublePendulumEnvCfg) (state : Fin 4 → ℝ) : Fin 4 → ℝ :=
  fun i => state i - goal_tensor cfg i

/-- `state_cost = torch.einsum("bi, ij, bj->b", error, Q, error)` with
`Q = torch.diag(reward_state_weights)` (one row of the batch). -/
def state_cost (cfg : DoublePendulumEnvCfg) (state : Fin 4 → ℝ) : ℝ :=
  ∑ i, ∑ j,
    reward_error cfg state i * Matrix.diagonal cfg.reward_state_weights i j *
      reward_error cfg state j

/-- `action_cost = reward_action_weight * torch.sum(action**2, dim=-1)`
(one row; `k` is the action width). -/
def action_cost {k : ℕ} (cfg : DoublePendulumEnvCfg) (action : Fin k → ℝ) : ℝ :=
  cfg.reward_action_weight * ∑ j, action j ^ 2

/-- `base_reward = -(reward_scale * (state_cost + action_cost)) - time_penalty`. -/
def base_reward {k : ℕ} (cfg : DoublePendulumEnvCfg) (state : Fin 4 → ℝ)
    (action : Fin k → ℝ) : ℝ :=
  -(cfg.reward_scale * (state_cost cfg state + action_cost cfg action)) -
    cfg.time_penalty

/-- `error_norm = torch.norm(error, dim=-1)` (L2 norm of one row of `error`). -/
def reward_error_norm (cfg : DoublePendulumEnvCfg) (state : Fin 4 → ℝ) : ℝ :=
  Real.sqrt (∑ i, reward_error cfg state i ^ 2)

/-- The `bonus` term of `_get_rewards`.  The source guards it by
`torch.norm(state - goal_tensor, dim=-1) < success_threshold`; since `error`
is bound to exactly `state - goal_tensor`, that recomputed norm is the same
expression as `error_norm`, which is how it is written here. -/
def bonus (cfg : DoublePendulumEnvCfg) (state : Fin 4 → ℝ) : ℝ :=
  if reward_error_norm cfg state < cfg.success_threshold then cfg.bonus_reward else 0

/-- The stable-counter update
`torch.where(error_norm < success_threshold, stable_count + 1, 0)` (one row). -/
def stable_count_update (cfg : DoublePendulumEnvCfg) (state : Fin 4 → ℝ)
    (stable_count : ℕ) : ℕ :=
  if reward_error_norm cfg state < cfg.success_threshold then stable_count + 1 else 0

/-- `angle_shaping.sum(dim=-1)` where
`angle_shaping = 1 - torch.tanh(torch.abs(error[:, :2]))` (one row: the two
angle components of the error). -/
def angle_shaping_sum (cfg : DoublePendulumEnvCfg) (state : Fin 4 → ℝ) : ℝ :=
  (1 - Real.tanh |reward_error cfg state 0|) +
    (1 - Real.tanh |reward_error cfg state 1|)

/-- One row of the returned reward:
`reward = base_reward + angle_shaping.sum(dim=-1) * 0.01 + bonus`. -/
def reward_row {k : ℕ} (cfg : DoublePendulumEnvCfg) (state : Fin 4 → ℝ)
    (action : Fin k → ℝ) : ℝ :=
  base_reward cfg state action + angle_shaping_sum cfg state * 0.01 +
    bonus cfg state

/-- What `_get_rewards` produces: the returned reward batch and the updated
`self._stable_count` batch. -/
structure RewardsResult (n : ℕ) where
  rewards : Fin n → ℝ
  stable_count : Fin n → ℕ

/-- `_get_rewards` over a batch of `n` rows.  All tensor operations in the
source are elementwise or rowwise, so the batch computation is the rowwise
computation applied to each row. -/
def get_rewards {n k : ℕ} (cfg : DoublePendulumEnvCfg)
    (state : Fin n → Fin 4 → ℝ) (action : Fin n → Fin k → ℝ)
    (stable_count : Fin n → ℕ) : RewardsResult n where
  rewards := fun b => reward_row cfg (state b) (action b)
  stable_count := fun b => stable_count_update cfg (state b) (stable_count b)

/-- The error norm computed in `_get_dones`:
`torch.norm(state - goal, dim=-1)` where `goal` is the raw configured
`goal_state` tensor — unlike `_get_rewards`, its angle components are NOT
passed through `normalize_angle`. -/
def dones_error_norm (cfg : DoublePendulumEnvCfg) (state : Fin 4 → ℝ) : ℝ :=
  Real.sqrt (∑ i, (state i - cfg.goal_state i) ^ 2)

/-- The pair returned by `_get_dones` for one row. -/
structure DonesResult where
  dones : Bool
  time_outs : Bool

/-- One row of `_get_dones`.  `success` and `sustained_stability` are computed
exactly as in the source but bound to local values that do not reach the
returned pair: both components of the result are the `time_out` flag
`episode_length_buf >= max_episode_length - 1`. -/
def get_dones (cfg : DoublePendulumEnvCfg) (state : Fin 4 → ℝ)
    (stable_count : ℕ) (episode_length_buf max_episode_length : ℕ) : DonesResult :=
  let error_norm := dones_error_norm cfg state
  let _success : Prop := error_norm < cfg.success_threshold
  let _sustained_stability : Prop := stable_count ≥ cfg.sustain_steps
  let time_out : Bool := decide (episode_length_buf ≥ max_episode_length - 1)
  { dones := time_out, time_outs := time_out }

/-- The per-environment mutable state that `_reset_idx` touches and the claims
quantify over: the joint position/velocity rows and the stable counter. -/
structure EnvState (n : ℕ) where
  joint_pos : Fin n → Fin 2 → ℝ
  joint_vel : Fin n → Fin 2 → ℝ
  stable_count : Fin n → ℕ

/-- `_reset_idx(env_ids)`: rows in `env_ids` get
`default_joint_pos + sample_uniform offset` per joint (shoulder index 0,
elbow index 1), `default_joint_vel`, and a zeroed stable counter; the
`sample_uniform` draws are the explicit inputs `samp_shoulder`, `samp_elbow`.
Rows outside `env_ids` are not assigned. -/
def reset_idx {n : ℕ} (st : EnvState n) (env_ids : Finset (Fin n))
    (default_joint_pos default_joint_vel : Fin n → Fin 2 → ℝ)
    (samp_shoulder samp_elbow : Fin n → ℝ) : EnvState n where
  joint_pos := fun i =>
    if i ∈ env_ids then
      fun j =>
        default_joint_pos i j +
          (if j = 0 then samp_shoulder i else samp_elbow i)
    else st.joint_pos i
  joint_vel := fun i =>
    if i ∈ env_ids then default_joint_vel i else st.joint_vel i
  stable_count := fun i => if i ∈ env_ids then 0 else st.stable_count i


lemma pymod_nonneg {m : ℝ} (hm : 0 < m) (x : ℝ) : 0 ≤ pymod x m := by
  have h1 : (⌊x / m⌋ : ℝ) ≤ x / m := Int.floor_le _
  have h2 : m * (⌊x / m⌋ : ℝ) ≤ m * (x / m) := by
    exact mul_le_mul_of_nonneg_left h1 hm.le
  have h3 : m * (x / m) = x := by field_simp
  unfold pymod
  linarith

lemma pymod_lt {m : ℝ} (hm : 0 < m) (x : ℝ) : pymod x m < m := by
  have h1 : x / m < (⌊x / m⌋ : ℝ) + 1 := Int.lt_floor_add_one _
  have h2 : m * (x / m) < m * ((⌊x / m⌋ : ℝ) + 1) := by
    exact mul_lt_mul_of_pos_left h1 hm
  have h3 : m * (x / m) = x := by field_simp
  unfold pymod
  nlinarith

lemma pymod_eq_self {m x : ℝ} (hm : 0 < m) (h0 : 0 ≤ x) (h1 : x < m) :
    pymod x m = x := by
  have hfl : ⌊x / m⌋ = 0 := by
    rw [Int.floor_eq_zero_iff]
    constructor
    · exact div_nonneg h0 hm.le
    · exact (div_lt_one hm).mpr h1
  simp [pymod, hfl]

lemma normalize_angle_lower (x : ℝ) : -π ≤ normalize_angle x := by
  have := pymod_nonneg two_pi_pos (x + π)
  unfold normalize_angle
  linarith

lemma normalize_angle_upper (x : ℝ) : normalize_angle x < π := by
  have := pymod_lt two_pi_pos (x + π)
  unfold normalize_angle
  linarith

lemma normalize_angle_eq_self {x : ℝ} (h0 : -π ≤ x) (h1 : x < π) :
    normalize_angle x = x := by
  unfold normalize_angle
  rw [pymod_eq_self two_pi_pos (by linarith) (by linarith)]
  ring

lemma normalize_angle_idem (x : ℝ) :
    normalize_angle (normalize_angle x) = normalize_angle x :=
  normalize_angle_eq_self (normalize_angle_lower x) (normalize_angle_upper x)

lemma normalize_angle_pi : normalize_angle π = -π := by
  unfold normalize_angle pymod
  have hne : (2 * π) ≠ 0 := ne_of_gt two_pi_pos
  have hdiv : (π + π) / (2 * π) = 1 := by
    field_simp
    ring
  rw [hdiv, Int.floor_one]
  push_cast
  ring

lemma normalize_angle_three_pi : normalize_angle (3 * π) = -π := by
  unfold normalize_angle pymod
  have hne : (2 * π) ≠ 0 := ne_of_gt two_pi_pos
  have hdiv : (3 * π + π) / (2 * π) = 2 := by
    field_simp
    ring
  have hfl : ⌊(2 : ℝ)⌋ = 2 := by norm_num
  rw [hdiv, hfl]
  push_cast
  ring

lemma normalize_angle_neg_pi : normalize_angle (-π) = -π :=
  normalize_angle_eq_self le_rfl (by linarith [pi_pos])

lemma normalize_angle_zero : normalize_angle 0 = 0 :=
  normalize_angle_eq_self (by linarith [pi_pos]) pi_pos

/-- C3 counterexample: at `x = π` the output of `normalize_angle` is `-π`,
which does not lie in the half-open interval `(−π, π]` claimed by the spec. -/
theorem normalize_angle_range_counterexample :
    ¬ (-π < normalize_angle π ∧ normalize_angle π ≤ π) := by
  rw [normalize_angle_pi]
  intro h
  exact lt_irrefl _ h.1

/-- C3 (amended): `normalize_angle` is idempotent, and its output lies in the
half-open interval `[−π, π)` (closed at `−π`, open at `π`) rather than `(−π, π]`. -/
theorem normalize_angle_idem_and_range (x : ℝ) :
    normalize_angle (normalize_angle x) = normalize_angle x ∧
      -π ≤ normalize_angle x ∧ normalize_angle x < π :=
  ⟨normalize_angle_idem x, normalize_angle_lower x, normalize_angle_upper x⟩


/-- A configuration equal to the default one except for a goal state whose
shoulder angle `3 * pi` is not already in normalized form. -/
def cfgC1 : DoublePendulumEnvCfg := { cfgDefault with goal_state := ![3 * π, 0, 0, 0] }

/-- A concrete 8-row environment state used to instantiate the reset frame
property. -/
def stWitness : EnvState 8 where
  joint_pos := fun _ _ => 1
  joint_vel := fun _ _ => 2
  stable_count := fun _ => 7

lemma state_cost_eq (cfg : DoublePendulumEnvCfg) (state : Fin 4 → ℝ) :
    state_cost cfg state =
      ∑ i, cfg.reward_state_weights i * reward_error cfg state i ^ 2 := by
  unfold state_cost
  refine Finset.sum_congr rfl fun i _ => ?_
  simp only [Matrix.diagonal_apply, mul_ite, ite_mul, mul_zero, zero_mul]
  rw [Finset.sum_ite_eq]
  simp only [Finset.mem_univ, if_true]
  ring

lemma reward_error_cfgDefault_goal (i : Fin 4) :
    reward_error cfgDefault ![-π, 0, 0, 0] i = 0 := by
  fin_cases i <;>
    simp [reward_error, goal_tensor, cfgDefault, normalize_angle_neg_pi,
      normalize_angle_zero]

lemma reward_error_norm_cfgDefault_goal :
    reward_error_norm cfgDefault ![-π, 0, 0, 0] = 0 := by
  unfold reward_error_norm
  rw [Fin.sum_univ_four, reward_error_cfgDefault_goal 0,
    reward_error_cfgDefault_goal 1, reward_error_cfgDefault_goal 2,
    reward_error_cfgDefault_goal 3]
  norm_num

/-- C7: the velocity components (indices 2 and 3) of the observation returned
by `_get_observations` always lie in `[-1, 1]`, for every configuration and
every joint state. -/
theorem get_observations_vel_bounded (cfg : DoublePendulumEnvCfg)
    (joint_pos joint_vel : Fin 2 → ℝ) :
    (-1 ≤ get_observations cfg joint_pos joint_vel 2 ∧
      get_observations cfg joint_pos joint_vel 2 ≤ 1) ∧
    (-1 ≤ get_observations cfg joint_pos joint_vel 3 ∧
      get_observations cfg joint_pos joint_vel 3 ≤ 1) := by
  have h : ∀ x : ℝ, -1 ≤ clamp x (-1) 1 ∧ clamp x (-1) 1 ≤ 1 := fun x =>
    ⟨le_min (le_max_right x (-1)) (by norm_num), min_le_right _ _⟩
  exact ⟨h _, h _⟩

/-- C2: `_get_dones` returns `done = time_out` in both components, where
`time_out` holds iff `episode_length_buf ≥ max_episode_length - 1`; the
`success` and `sustained_stability` values do not contribute: the result is
unchanged under arbitrary changes of the configuration, the observation and
the stable counter. -/
theorem get_dones_timeout_only (cfg cfg₂ : DoublePendulumEnvCfg)
    (state state₂ : Fin 4 → ℝ) (stable_count stable_count₂ : ℕ)
    (episode_length_buf max_episode_length : ℕ) :
    (get_dones cfg state stable_count episode_length_buf max_episode_length).dones =
      (get_dones cfg state stable_count episode_length_buf max_episode_length).time_outs ∧
    ((get_dones cfg state stable_count episode_length_buf max_episode_length).dones = true ↔
      max_episode_length - 1 ≤ episode_length_buf) ∧
    get_dones cfg state stable_count episode_length_buf max_episode_length =
      get_dones cfg₂ state₂ stable_count₂ episode_length_buf max_episode_length := by
  refine ⟨rfl, ?_, rfl⟩
  simp [get_dones]

/-- C4: in each `_get_rewards` call the stable counter of row `i` becomes
`old + 1` exactly when that row's reward error norm is below
`success_threshold` and `0` otherwise, and the updated value depends only on
row `i`'s own observation and counter. -/
theorem stable_count_step {n k : ℕ} (cfg : DoublePendulumEnvCfg)
    (state : Fin n → Fin 4 → ℝ) (action : Fin n → Fin k → ℝ)
    (sc : Fin n → ℕ) (i : Fin n) :
    (reward_error_norm cfg (state i) < cfg.success_threshold →
      (get_rewards cfg state action sc).stable_count i = sc i + 1) ∧
    (¬ reward_error_norm cfg (state i) < cfg.success_threshold →
      (get_rewards cfg state action sc).stable_count i = 0) ∧
    (∀ (state₂ : Fin n → Fin 4 → ℝ) (action₂ : Fin n → Fin k → ℝ)
        (sc₂ : Fin n → ℕ), state₂ i = state i → sc₂ i = sc i →
      (get_rewards cfg state₂ action₂ sc₂).stable_count i =
        (get_rewards cfg state action sc).stable_count i) := by
  refine ⟨fun h => ?_, fun h => ?_, fun state₂ action₂ sc₂ hs hc => ?_⟩
  · simp [get_rewards, stable_count_update, h]
  · simp [get_rewards, stable_count_update, h]
  · simp [get_rewards, stable_count_update, hs, hc]

/-- C4 witness: at the default configuration, a row sitting exactly at the
goal with counter `3` gets counter `3 + 1`. -/
theorem stable_count_step_witness :
    (get_rewards cfgDefault (fun _ : Fin 1 => ![-π, 0, 0, 0])
        (fun _ : Fin 1 => ![0]) (fun _ : Fin 1 => 3)).stable_count 0 = 3 + 1 :=
  (stable_count_step cfgDefault (fun _ : Fin 1 => ![-π, 0, 0, 0])
      (fun _ : Fin 1 => ![0]) (fun _ : Fin 1 => 3) 0).1
    (by
      show reward_error_norm cfgDefault ![-π, 0, 0, 0] < cfgDefault.success_threshold
      rw [reward_error_norm_cfgDefault_goal]
      norm_num [cfgDefault])

/-- C9: `_get_rewards` is deterministic — two calls with identical
observation batch, action batch and prior stable-count state (and the same
configuration) return identical reward batches and identical updated
counters; the embedding takes no random input. -/
theorem get_rewards_deterministic {n k : ℕ} (cfg : DoublePendulumEnvCfg)
    (state₁ state₂ : Fin n → Fin 4 → ℝ) (action₁ action₂ : Fin n → Fin k → ℝ)
    (sc₁ sc₂ : Fin n → ℕ) (hs : state₁ = state₂) (ha : action₁ = action₂)
    (hc : sc₁ = sc₂) :
    get_rewards cfg state₁ action₁ sc₁ = get_rewards cfg state₂ action₂ sc₂ := by
  rw [hs, ha, hc]

/-- C9 witness: the determinism theorem applied at a concrete input. -/
theorem get_rewards_deterministic_witness :
    get_rewards cfgDefault (fun _ : Fin 1 => ![-π, 0, 0, 0])
        (fun _ : Fin 1 => ![0]) (fun _ : Fin 1 => 0) =
      get_rewards cfgDefault (fun _ : Fin 1 => ![-π, 0, 0, 0])
        (fun _ : Fin 1 => ![0]) (fun _ : Fin 1 => 0) :=
  get_rewards_deterministic cfgDefault _ _ _ _ _ _ rfl rfl rfl

/-- C10: within one `_get_rewards` call, row `i` receives the bonus exactly
when its stable counter is incremented, because both branches test the same
error norm against the same threshold: either the returned reward is the
shaped base reward plus `bonus_reward` and the counter becomes `old + 1`, or
the returned reward is the shaped base reward alone and the counter becomes
`0`. -/
theorem bonus_stable_agree {n k : ℕ} (cfg : DoublePendulumEnvCfg)
    (state : Fin n → Fin 4 → ℝ) (action : Fin n → Fin k → ℝ)
    (sc : Fin n → ℕ) (i : Fin n) :
    ((get_rewards cfg state action sc).rewards i =
        base_reward cfg (state i) (action i) +
          angle_shaping_sum cfg (state i) * 0.01 + cfg.bonus_reward ∧
      (get_rewards cfg state action sc).stable_count i = sc i + 1) ∨
    ((get_rewards cfg state action sc).rewards i =
        base_reward cfg (state i) (action i) +
          angle_shaping_sum cfg (state i) * 0.01 ∧
      (get_rewards cfg state action sc).stable_count i = 0) := by
  by_cases h : reward_error_norm cfg (state i) < cfg.success_threshold
  · left
    exact ⟨by simp [get_rewards, reward_row, bonus, h],
      by simp [get_rewards, stable_count_update, h]⟩
  · right
    exact ⟨by simp [get_rewards, reward_row, bonus, h],
      by simp [get_rewards, stable_count_update, h]⟩


/-- C1 counterexample: with the goal state `[3π, 0, 0, 0]` and the zero
observation, the error norm computed by `_get_dones` (which uses the raw goal)
differs from the norm of observation minus the normalized goal — so the claim
that `_get_dones` uses observation minus the normalized goal is false. -/
theorem goal_normalization_counterexample :
    dones_error_norm cfgC1 ![0, 0, 0, 0] ≠
      Real.sqrt (∑ i, ((![0, 0, 0, 0] : Fin 4 → ℝ) i - goal_tensor cfgC1 i) ^ 2) := by
  have hL : dones_error_norm cfgC1 ![0, 0, 0, 0] = 3 * π := by
    unfold dones_error_norm
    have hsum : (∑ i, ((![0, 0, 0, 0] : Fin 4 → ℝ) i - cfgC1.goal_state i) ^ 2) =
        (3 * π) ^ 2 := by
      rw [Fin.sum_univ_four]
      show ((0 : ℝ) - 3 * π) ^ 2 + ((0 : ℝ) - 0) ^ 2 + ((0 : ℝ) - 0) ^ 2 +
          ((0 : ℝ) - 0) ^ 2 = (3 * π) ^ 2
      ring
    rw [hsum]
    exact Real.sqrt_sq (by positivity)
  have hg0 : goal_tensor cfgC1 0 = -π := by
    simp [goal_tensor, cfgC1, cfgDefault, normalize_angle_three_pi]
  have hg1 : goal_tensor cfgC1 1 = 0 := by
    simp [goal_tensor, cfgC1, cfgDefault, normalize_angle_zero]
  have hg2 : goal_tensor cfgC1 2 = 0 := by
    simp [goal_tensor, cfgC1, cfgDefault]
  have hg3 : goal_tensor cfgC1 3 = 0 := by
    have hlt : ¬ ((3 : Fin 4) : ℕ) < 2 := by decide
    simp [goal_tensor, hlt, cfgC1, cfgDefault]
  have hR : Real.sqrt (∑ i, ((![0, 0, 0, 0] : Fin 4 → ℝ) i - goal_tensor cfgC1 i) ^ 2) =
      π := by
    have hsum : (∑ i, ((![0, 0, 0, 0] : Fin 4 → ℝ) i - goal_tensor cfgC1 i) ^ 2) =
        π ^ 2 := by
      rw [Fin.sum_univ_four, hg0, hg1, hg2, hg3]
      show ((0 : ℝ) - -π) ^ 2 + ((0 : ℝ) - 0) ^ 2 + ((0 : ℝ) - 0) ^ 2 +
          ((0 : ℝ) - 0) ^ 2 = π ^ 2
      ring
    rw [hsum]
    exact Real.sqrt_sq pi_pos.le
  rw [hL, hR]
  intro h
  have := pi_pos
  linarith

/-- C1 (amended): in `_get_rewards` the error is observation minus the goal
with its two angle components normalized; in `_get_dones` the error norm uses
the raw configured goal without normalization.  The two computations agree
whenever the goal's angle components are already fixed points of
`normalize_angle` — as the default goal `[-π, 0, 0, 0]` is. -/
theorem goal_normalization_amended (cfg : DoublePendulumEnvCfg)
    (state : Fin 4 → ℝ) :
    (∀ i : Fin 4, reward_error cfg state i =
        state i -
          (if (i : ℕ) < 2 then normalize_angle (cfg.goal_state i)
            else cfg.goal_state i)) ∧
    dones_error_norm cfg state =
      Real.sqrt (∑ i, (state i - cfg.goal_state i) ^ 2) ∧
    (normalize_angle (cfg.goal_state 0) = cfg.goal_state 0 →
      normalize_angle (cfg.goal_state 1) = cfg.goal_state 1 →
      dones_error_norm cfg state = reward_error_norm cfg state) := by
  refine ⟨fun i => rfl, rfl, fun h0 h1 => ?_⟩
  unfold dones_error_norm reward_error_norm
  congr 1
  refine Finset.sum_congr rfl fun i _ => ?_
  congr 1
  unfold reward_error goal_tensor
  fin_cases i <;> simp [h0, h1]

/-- C1 witness: at the default goal `[-π, 0, 0, 0]`, whose angle components
are already normalized, the two error norms coincide. -/
theorem goal_normalization_amended_witness :
    dones_error_norm cfgDefault ![0, 0, 0, 0] =
      reward_error_norm cfgDefault ![0, 0, 0, 0] :=
  (goal_normalization_amended cfgDefault ![0, 0, 0, 0]).2.2
    (by simp [cfgDefault, normalize_angle_neg_pi])
    (by simp [cfgDefault, normalize_angle_zero])

/-- C5: `_reset_idx(env_ids)` leaves every row outside `env_ids` with its
joint positions, joint velocities and stable counter numerically unchanged. -/
theorem reset_idx_frame {n : ℕ} (st : EnvState n) (env_ids : Finset (Fin n))
    (default_joint_pos default_joint_vel : Fin n → Fin 2 → ℝ)
    (samp_shoulder samp_elbow : Fin n → ℝ) (i : Fin n) (h : i ∉ env_ids) :
    (reset_idx st env_ids default_joint_pos default_joint_vel samp_shoulder
        samp_elbow).joint_pos i = st.joint_pos i ∧
    (reset_idx st env_ids default_joint_pos default_joint_vel samp_shoulder
        samp_elbow).joint_vel i = st.joint_vel i ∧
    (reset_idx st env_ids default_joint_pos default_joint_vel samp_shoulder
        samp_elbow).stable_count i = st.stable_count i := by
  unfold reset_idx
  simp [h]

/-- C5 witness: resetting rows `{2, 5}` of an 8-row batch leaves row `0`
unchanged. -/
theorem reset_idx_frame_witness :
    (0 : Fin 8) ∉ ({2, 5} : Finset (Fin 8)) ∧
    (reset_idx stWitness {2, 5} (fun _ _ => 0) (fun _ _ => 0) (fun _ => 1)
        (fun _ => 1)).joint_pos 0 = stWitness.joint_pos 0 ∧
    (reset_idx stWitness {2, 5} (fun _ _ => 0) (fun _ _ => 0) (fun _ => 1)
        (fun _ => 1)).joint_vel 0 = stWitness.joint_vel 0 ∧
    (reset_idx stWitness {2, 5} (fun _ _ => 0) (fun _ _ => 0) (fun _ => 1)
        (fun _ => 1)).stable_count 0 = stWitness.stable_count 0 :=
  ⟨by decide,
    reset_idx_frame stWitness {2, 5} (fun _ _ => 0) (fun _ _ => 0)
      (fun _ => 1) (fun _ => 1) 0 (by decide)⟩


/-- C6 counterexample: a row exactly at the goal `[-π, 0, 0, 0]` (zero error
vector) with action `[2]` does not receive the reward
`-time_penalty + 0.02 + bonus_reward` claimed for every such row — the claim
omits the action cost, which here subtracts `0.1 · 2² = 0.4`. -/
theorem reward_at_goal_counterexample :
    (∀ i, reward_error cfgDefault ![-π, 0, 0, 0] i = 0) ∧
    reward_row cfgDefault ![-π, 0, 0, 0] (![2] : Fin 1 → ℝ) ≠
      -cfgDefault.time_penalty + 0.02 + cfgDefault.bonus_reward := by
  refine ⟨reward_error_cfgDefault_goal, ?_⟩
  have hsc : state_cost cfgDefault ![-π, 0, 0, 0] = 0 := by
    rw [state_cost_eq, Fin.sum_univ_four, reward_error_cfgDefault_goal 0,
      reward_error_cfgDefault_goal 1, reward_error_cfgDefault_goal 2,
      reward_error_cfgDefault_goal 3]
    ring
  have hac : action_cost cfgDefault (![2] : Fin 1 → ℝ) = 0.4 := by
    unfold action_cost
    rw [Fin.sum_univ_one]
    norm_num [cfgDefault]
  have hb : bonus cfgDefault ![-π, 0, 0, 0] = 20 := by
    unfold bonus
    rw [reward_error_norm_cfgDefault_goal, if_pos]
    · rfl
    · norm_num [cfgDefault]
  have hsh : angle_shaping_sum cfgDefault ![-π, 0, 0, 0] = 2 := by
    unfold angle_shaping_sum
    rw [reward_error_cfgDefault_goal 0, reward_error_cfgDefault_goal 1]
    norm_num [Real.tanh_zero]
  have hval : reward_row cfgDefault ![-π, 0, 0, 0] (![2] : Fin 1 → ℝ) = 19.61 := by
    unfold reward_row base_reward
    rw [hsc, hac, hb, hsh]
    norm_num [cfgDefault]
  rw [hval]
  norm_num [cfgDefault]

/-- C6 (amended): at goal state `[-π, 0, 0, 0]` and weights `[1, 2, 0.1, 0.1]`,
a row whose error vector is `[0, 0, 0, 0]` and whose action is zero has
`state_cost = 0`, receives the bonus, has angle shaping term
`2 · (1 − tanh 0) · 0.01 = 0.02`, and gets reward
`-time_penalty + 0.02 + bonus_reward`. -/
theorem reward_at_goal {k : ℕ} (cfg : DoublePendulumEnvCfg)
    (state : Fin 4 → ℝ) (action : Fin k → ℝ)
    (hgoal : cfg.goal_state = ![-π, 0, 0, 0])
    (hweights : cfg.reward_state_weights = ![1, 2, 0.1, 0.1])
    (hthr : 0 < cfg.success_threshold)
    (herr : ∀ i, reward_error cfg state i = 0)
    (hact : ∀ j, action j = 0) :
    state_cost cfg state = 0 ∧
    bonus cfg state = cfg.bonus_reward ∧
    angle_shaping_sum cfg state * 0.01 = 0.02 ∧
    reward_row cfg state action =
      -cfg.time_penalty + 0.02 + cfg.bonus_reward := by
  have hnorm : reward_error_norm cfg state = 0 := by
    unfold reward_error_norm
    rw [Fin.sum_univ_four, herr 0, herr 1, herr 2, herr 3]
    norm_num
  have hsc : state_cost cfg state = 0 := by
    rw [state_cost_eq, Fin.sum_univ_four, herr 0, herr 1, herr 2, herr 3]
    ring
  have hac : action_cost cfg action = 0 := by
    unfold action_cost
    rw [Finset.sum_eq_zero fun j _ => by rw [hact j]; ring]
    ring
  have hb : bonus cfg state = cfg.bonus_reward := by
    unfold bonus
    rw [hnorm, if_pos hthr]
  have hsh : angle_shaping_sum cfg state * 0.01 = 0.02 := by
    unfold angle_shaping_sum
    rw [herr 0, herr 1]
    norm_num [Real.tanh_zero]
  refine ⟨hsc, hb, hsh, ?_⟩
  unfold reward_row base_reward
  rw [hsc, hac, hsh, hb]
  ring

/-- C6 witness: the amended scenario at the default configuration with the
zero action of width one. -/
theorem reward_at_goal_witness :
    reward_row cfgDefault ![-π, 0, 0, 0] (![0] : Fin 1 → ℝ) =
      -cfgDefault.time_penalty + 0.02 + cfgDefault.bonus_reward :=
  (reward_at_goal cfgDefault ![-π, 0, 0, 0] (![0] : Fin 1 → ℝ) rfl rfl
      (by norm_num [cfgDefault]) reward_error_cfgDefault_goal
      (fun j => by fin_cases j <;> rfl)).2.2.2

end
